import Mathlib

/-!
# Shallow embedding of `BioPassportRegistry.sol` (BioPassport, contracts/src)

This file embeds the Solidity contract `BioPassportRegistry` as a pure state
machine in Lean and proves properties of its operations and of the
verification predicate `_verifyMaterialAt`.

Modelling conventions:
* `address` and `bytes32` are modelled as `Nat` (`0` is the zero address /
  zero hash).  `uint256` timestamps and counters are `Nat` (the counters and
  timestamps never approach `2^256` on any reachable trace considered here,
  and the contract performs no wrapping arithmetic on them).
* Solidity mappings are total functions with the Solidity default value at
  absent keys (exactly as the EVM returns them).
* A reverting call is `Except.error e`; the EVM rolls back every state
  change on revert, so an error carries no post-state.
* The strict `keccak256(bytes(materialType))` comparison against the
  `CELL_LINE` / `PLASMID` constants is modelled as string equality
  (`keccak256` is injective on the byte strings relevant here).
* History entries are `keccak256` digests of packed event data; we record
  the pre-image (tag and packed fields) as an inductive datatype instead of
  the digest, which preserves exactly the push structure of the contract.
-/

namespace BioPassport

/-- Solidity enum `MaterialStatus`: ACTIVE, QUARANTINED, REVOKED. -/
inductive MaterialStatus where
  | ACTIVE
  | QUARANTINED
  | REVOKED
deriving DecidableEq, Repr

/-- Solidity enum `CredentialType`: IDENTITY, QC_MYCO, USAGE_RIGHTS. -/
inductive CredentialType where
  | IDENTITY
  | QC_MYCO
  | USAGE_RIGHTS
deriving DecidableEq, Repr

/-- Struct `Material` of `BioPassportRegistry.sol`. -/
structure Material where
  materialId : String
  materialType : String
  metadataHash : Nat
  owner : Nat
  ownerOrg : String
  status : MaterialStatus
  createdAt : Nat
  updatedAt : Nat
deriving DecidableEq, Repr

/-- Solidity default value of a `Material` storage slot. -/
def defaultMaterial : Material :=
  { materialId := "", materialType := "", metadataHash := 0, owner := 0
    ownerOrg := "", status := .ACTIVE, createdAt := 0, updatedAt := 0 }

/-- Struct `Credential` of `BioPassportRegistry.sol`. -/
structure Credential where
  credentialId : String
  materialId : String
  credType : CredentialType
  commitmentHash : Nat
  issuer : Nat
  issuerId : String
  issuedAt : Nat
  validUntil : Nat
  artifactCid : String
  artifactHash : Nat
  revoked : Bool
deriving DecidableEq, Repr

/-- Solidity default value of a `Credential` storage slot. -/
def defaultCredential : Credential :=
  { credentialId := "", materialId := "", credType := .IDENTITY
    commitmentHash := 0, issuer := 0, issuerId := "", issuedAt := 0
    validUntil := 0, artifactCid := "", artifactHash := 0, revoked := false }

/-- Struct `Transfer` of `BioPassportRegistry.sol`. -/
structure Transfer where
  transferId : String
  materialId : String
  fromAddress : Nat
  fromOrg : String
  toAddress : Nat
  toOrg : String
  shipmentHash : Nat
  timestamp : Nat
  accepted : Bool
deriving DecidableEq, Repr

/-- Struct `IssuerPermission` of `BioPassportRegistry.sol`. -/
structure IssuerPermission where
  isApproved : Bool
  canIssueIdentity : Bool
  canIssueQC : Bool
  canIssueUsageRights : Bool
deriving DecidableEq, Repr

/-- Solidity default value of an `IssuerPermission` storage slot. -/
def defaultPermission : IssuerPermission :=
  { isApproved := false, canIssueIdentity := false, canIssueQC := false
    canIssueUsageRights := false }

/-- Pre-image of one `materialHistory` push (the contract stores the
`keccak256` of exactly these packed fields). -/
inductive HistoryEntry where
  | registered (actor : Nat) (time : Nat)
  | statusOwner (newStatus : MaterialStatus) (reasonHash : Nat) (time : Nat)
  | statusAuthority (actor : Nat) (newStatus : MaterialStatus) (reasonHash : Nat) (time : Nat)
  | credentialIssued (credentialId : String) (credType : CredentialType) (time : Nat)
  | credentialRevoked (credentialId : String) (time : Nat)
  | transferInitiated (transferId : String) (toAddress : Nat) (time : Nat)
  | transferAccepted (transferId : String) (actor : Nat) (time : Nat)
deriving DecidableEq, Repr

/-- The custom errors declared by the contract (those reachable from the
operations modelled here). -/
inductive Err where
  | OnlyAdmin
  | NotMaterialOwner
  | NotAuthorizedForStatus
  | MaterialNotFound
  | MaterialAlreadyExists
  | InvalidMaterialType
  | NotApprovedIssuer
  | IssuerRevoked
  | NotAuthorizedForCredentialType
  | CredentialNotFound
  | CredentialAlreadyRevoked
  | NotAuthorizedToRevoke
  | InvalidCommitmentHash
  | InvalidArtifactHash
  | InvalidValidUntil
  | MaterialNotActive
  | PendingTransferExists
  | NoTransfers
  | NoPendingTransfer
  | NotTransferRecipient
deriving DecidableEq, Repr

/-- Pointwise update of a mapping keyed by strings. -/
def updS {α : Type} (f : String → α) (k : String) (v : α) : String → α :=
  fun x => if x = k then v else f x

/-- Pointwise update of a mapping keyed by addresses. -/
def updA {α : Type} (f : Nat → α) (k : Nat) (v : α) : Nat → α :=
  fun x => if x = k then v else f x

/-- The full storage of `BioPassportRegistry`. -/
structure RegistryState where
  admin : Nat
  materialCount : Nat
  credentialCount : Nat
  transferCount : Nat
  materials : String → Material
  materialExists : String → Bool
  materialCredentials : String → List String
  credentials : String → Credential
  materialTransfers : String → List Transfer
  issuerPermissions : Nat → IssuerPermission
  issuerRevokedAt : Nat → Nat
  materialHistory : String → List HistoryEntry

/-- The constructor: `admin = msg.sender`, and the deployer is approved as an
issuer with all capabilities. -/
def initialState (deployer : Nat) : RegistryState :=
  { admin := deployer
    materialCount := 0
    credentialCount := 0
    transferCount := 0
    materials := fun _ => defaultMaterial
    materialExists := fun _ => false
    materialCredentials := fun _ => []
    credentials := fun _ => defaultCredential
    materialTransfers := fun _ => []
    issuerPermissions := updA (fun _ => defaultPermission) deployer
      { isApproved := true, canIssueIdentity := true, canIssueQC := true
        canIssueUsageRights := true }
    issuerRevokedAt := fun _ => 0
    materialHistory := fun _ => [] }

/-- Digit loop of `uint2str` with a structural fuel argument (the loop
divides by 10 each iteration, so it runs at most `i` times and fuel `i`
never runs out; see `uint2strAux_pos`). -/
def uint2strGo : Nat → Nat → List Char → List Char
  | 0, _, acc => acc
  | fuel + 1, i, acc =>
    if i = 0 then acc
    else uint2strGo fuel (i / 10) (Char.ofNat (48 + i % 10) :: acc)

/-- Digit loop of `uint2str`: prepends the decimal digits of `i` to `acc`,
exactly as the Solidity loop fills `bstr` from the end. -/
def uint2strAux (i : Nat) (acc : List Char) : List Char :=
  uint2strGo i i acc

/-- Function `uint2str` of `BioPassportRegistry.sol`: decimal representation, with
`"0"` for zero. -/
def uint2str (i : Nat) : String :=
  if i = 0 then "0" else ⟨uint2strAux i []⟩

/-- The material ID minted by `registerMaterial` when the post-increment
counter is `n`: `bio:<kind>:<n>`. -/
def mintedId (materialType : String) (n : Nat) : String :=
  "bio:" ++ (if materialType = "CELL_LINE" then "cell_line" else "plasmid")
    ++ ":" ++ uint2str n

/-- Operation `authorizeIssuer` (admin only): installs the permission record and clears
any previous revocation. -/
def authorizeIssuer (sender : Nat) (issuer : Nat)
    (canIdentity canQC canUsageRights : Bool)
    (s : RegistryState) : Except Err RegistryState :=
  if sender ≠ s.admin then .error .OnlyAdmin
  else .ok { s with
    issuerPermissions := updA s.issuerPermissions issuer
      { isApproved := true, canIssueIdentity := canIdentity
        canIssueQC := canQC, canIssueUsageRights := canUsageRights }
    issuerRevokedAt := updA s.issuerRevokedAt issuer 0 }

/-- Operation `revokeIssuer` (admin only): clears approval and records the revocation
timestamp. -/
def revokeIssuer (sender : Nat) (now : Nat) (issuer : Nat)
    (s : RegistryState) : Except Err RegistryState :=
  if sender ≠ s.admin then .error .OnlyAdmin
  else .ok { s with
    issuerPermissions := updA s.issuerPermissions issuer
      { s.issuerPermissions issuer with isApproved := false }
    issuerRevokedAt := updA s.issuerRevokedAt issuer now }

/-- Operation `registerMaterial`: validates the type and metadata hash, mints
`bio:<kind>:<n>` from the incremented counter and stores the new material. -/
def registerMaterial (sender : Nat) (now : Nat)
    (materialType : String) (metadataHash : Nat) (ownerOrg : String)
    (s : RegistryState) : Except Err (RegistryState × String) :=
  if materialType ≠ "CELL_LINE" ∧ materialType ≠ "PLASMID" then
    .error .InvalidMaterialType
  else if metadataHash = 0 then .error .InvalidCommitmentHash
  else
  let newCount := s.materialCount + 1
  let materialId := mintedId materialType newCount
  if s.materialExists materialId then .error .MaterialAlreadyExists
  else .ok ({ s with
    materialCount := newCount
    materials := updS s.materials materialId
      { materialId := materialId, materialType := materialType
        metadataHash := metadataHash, owner := sender, ownerOrg := ownerOrg
        status := .ACTIVE, createdAt := now, updatedAt := now }
    materialExists := updS s.materialExists materialId true
    materialHistory := updS s.materialHistory materialId
      (s.materialHistory materialId ++ [.registered sender now]) },
    materialId)

/-- Operation `setStatusByOwner`: the `onlyMaterialOwner` modifier, then the
owner-specific status rules. -/
def setStatusByOwner (sender : Nat) (now : Nat)
    (materialId : String) (newStatus : MaterialStatus) (reasonHash : Nat)
    (s : RegistryState) : Except Err RegistryState :=
  if ¬ s.materialExists materialId then .error .MaterialNotFound
  else if (s.materials materialId).owner ≠ sender then .error .NotMaterialOwner
  else if newStatus = .REVOKED then .error .NotAuthorizedForStatus
  else
  let mat := s.materials materialId
  if mat.status = .REVOKED then .error .NotAuthorizedForStatus
  else .ok { s with
    materials := updS s.materials materialId
      { mat with status := newStatus, updatedAt := now }
    materialHistory := updS s.materialHistory materialId
      (s.materialHistory materialId ++ [.statusOwner newStatus reasonHash now]) }

/-- Operation `setStatusByAuthority`: the `materialMustExist` modifier, then the
admin-or-QC-issuer authority check; sets any status unconditionally. -/
def setStatusByAuthority (sender : Nat) (now : Nat)
    (materialId : String) (newStatus : MaterialStatus) (reasonHash : Nat)
    (s : RegistryState) : Except Err RegistryState :=
  if ¬ s.materialExists materialId then .error .MaterialNotFound
  else
  let isAuthorized := sender = s.admin ∨
    ((s.issuerPermissions sender).isApproved ∧
     (s.issuerPermissions sender).canIssueQC ∧
     s.issuerRevokedAt sender = 0)
  if ¬ isAuthorized then .error .NotAuthorizedForStatus
  else
  let mat := s.materials materialId
  .ok { s with
    materials := updS s.materials materialId
      { mat with status := newStatus, updatedAt := now }
    materialHistory := updS s.materialHistory materialId
      (s.materialHistory materialId ++
        [.statusAuthority sender newStatus reasonHash now]) }

/-- The per-type capability flag consulted by `issueCredential`. -/
def capFor (perm : IssuerPermission) : CredentialType → Bool
  | .IDENTITY => perm.canIssueIdentity
  | .QC_MYCO => perm.canIssueQC
  | .USAGE_RIGHTS => perm.canIssueUsageRights

/-- Operation `issueCredential`: modifiers `onlyApprovedIssuer` then
`materialMustExist`, then the body's input checks and capability check, then
the stores. -/
def issueCredential (sender : Nat) (now : Nat)
    (materialId : String) (credType : CredentialType)
    (commitmentHash : Nat) (validUntil : Nat)
    (artifactCid : String) (artifactHash : Nat) (issuerId : String)
    (s : RegistryState) : Except Err (RegistryState × String) :=
  if ¬ (s.issuerPermissions sender).isApproved then .error .NotApprovedIssuer
  else if s.issuerRevokedAt sender ≠ 0 then .error .IssuerRevoked
  else if ¬ s.materialExists materialId then .error .MaterialNotFound
  else if commitmentHash = 0 then .error .InvalidCommitmentHash
  else if artifactHash = 0 then .error .InvalidArtifactHash
  else if validUntil ≠ 0 ∧ validUntil ≤ now then .error .InvalidValidUntil
  else if ¬ capFor (s.issuerPermissions sender) credType then
    .error .NotAuthorizedForCredentialType
  else
  let newCount := s.credentialCount + 1
  let credentialId := "cred:" ++ uint2str newCount
  .ok ({ s with
    credentialCount := newCount
    credentials := updS s.credentials credentialId
      { credentialId := credentialId, materialId := materialId
        credType := credType, commitmentHash := commitmentHash
        issuer := sender, issuerId := issuerId, issuedAt := now
        validUntil := validUntil, artifactCid := artifactCid
        artifactHash := artifactHash, revoked := false }
    materialCredentials := updS s.materialCredentials materialId
      (s.materialCredentials materialId ++ [credentialId])
    materialHistory := updS s.materialHistory materialId
      (s.materialHistory materialId ++
        [.credentialIssued credentialId credType now]) },
    credentialId)

/-- Operation `revokeCredential`: existence by non-empty stored id, issuer-or-admin
authorization, single revocation. -/
def revokeCredential (sender : Nat) (now : Nat) (credentialId : String)
    (s : RegistryState) : Except Err RegistryState :=
  let cred := s.credentials credentialId
  if cred.credentialId = "" then .error .CredentialNotFound
  else if cred.issuer ≠ sender ∧ sender ≠ s.admin then .error .NotAuthorizedToRevoke
  else if cred.revoked then .error .CredentialAlreadyRevoked
  else .ok { s with
    credentials := updS s.credentials credentialId { cred with revoked := true }
    materialHistory := updS s.materialHistory cred.materialId
      (s.materialHistory cred.materialId ++
        [.credentialRevoked credentialId now]) }

/-- Operation `initiateTransfer`: `onlyMaterialOwner`, ACTIVE status, no pending
transfer at the tail, then append the new unaccepted transfer. -/
def initiateTransfer (sender : Nat) (now : Nat)
    (materialId : String) (toAddress : Nat) (toOrg : String)
    (shipmentHash : Nat)
    (s : RegistryState) : Except Err (RegistryState × String) :=
  if ¬ s.materialExists materialId then .error .MaterialNotFound
  else if (s.materials materialId).owner ≠ sender then .error .NotMaterialOwner
  else
  let mat := s.materials materialId
  if mat.status ≠ .ACTIVE then .error .MaterialNotActive
  else
  let transfers := s.materialTransfers materialId
  if (transfers.getLast?.elim false (fun t => !t.accepted)) then
    .error .PendingTransferExists
  else
  let newCount := s.transferCount + 1
  let transferId := "xfer:" ++ uint2str newCount
  let newTransfer : Transfer :=
    { transferId := transferId, materialId := materialId
      fromAddress := sender, fromOrg := mat.ownerOrg
      toAddress := toAddress, toOrg := toOrg
      shipmentHash := shipmentHash, timestamp := now, accepted := false }
  .ok ({ s with
    transferCount := newCount
    materialTransfers := updS s.materialTransfers materialId
      (transfers ++ [newTransfer])
    materialHistory := updS s.materialHistory materialId
      (s.materialHistory materialId ++
        [.transferInitiated transferId toAddress now]) },
    transferId)

/-- Operation `acceptTransfer`: `materialMustExist`, non-empty transfer list, the tail
transfer pending and addressed to the caller; marks it accepted and
reassigns ownership. -/
def acceptTransfer (sender : Nat) (now : Nat) (materialId : String)
    (s : RegistryState) : Except Err RegistryState :=
  if ¬ s.materialExists materialId then .error .MaterialNotFound
  else
  let transfers := s.materialTransfers materialId
  match transfers.getLast? with
  | none => .error .NoTransfers
  | some pending =>
    if pending.accepted then .error .NoPendingTransfer
    else if pending.toAddress ≠ sender then .error .NotTransferRecipient
    else
    let mat := s.materials materialId
    .ok { s with
      materialTransfers := updS s.materialTransfers materialId
        (transfers.dropLast ++ [{ pending with accepted := true }])
      materials := updS s.materials materialId
        { mat with owner := sender, ownerOrg := pending.toOrg, updatedAt := now }
      materialHistory := updS s.materialHistory materialId
        (s.materialHistory materialId ++
          [.transferAccepted pending.transferId sender now]) }

/-- The accumulator of the credential loop in `_verifyMaterialAt`:
`hasIdentity` plus the tracked latest-QC data. -/
structure QCScan where
  hasIdentity : Bool
  latestQcIssuedAt : Nat
  latestQcValidUntil : Nat
  latestQcFromRevokedIssuer : Bool
deriving DecidableEq, Repr

/-- Condition `issuerWasRevokedBeforeIssuance` for a credential:
`issuerRevokeTime != 0 && cred.issuedAt >= issuerRevokeTime`. -/
def revokedBeforeIssuance (s : RegistryState) (cred : Credential) : Bool :=
  s.issuerRevokedAt cred.issuer ≠ 0 ∧
    cred.issuedAt ≥ s.issuerRevokedAt cred.issuer

/-- One iteration of the credential loop of `_verifyMaterialAt`. -/
def scanStep (s : RegistryState) (acc : QCScan) (credId : String) : QCScan :=
  let cred := s.credentials credId
  let wasRevoked := revokedBeforeIssuance s cred
  let acc :=
    if cred.credType = .IDENTITY ∧ cred.revoked = false ∧ wasRevoked = false
    then { acc with hasIdentity := true } else acc
  if cred.credType = .QC_MYCO ∧ cred.revoked = false then
    if cred.issuedAt > acc.latestQcIssuedAt then
      { acc with latestQcIssuedAt := cred.issuedAt
                 latestQcValidUntil := cred.validUntil
                 latestQcFromRevokedIssuer := wasRevoked }
    else acc
  else acc

/-- The whole credential loop of `_verifyMaterialAt`. -/
def scanCredentials (s : RegistryState) (credIds : List String) : QCScan :=
  credIds.foldl (scanStep s)
    { hasIdentity := false, latestQcIssuedAt := 0, latestQcValidUntil := 0
      latestQcFromRevokedIssuer := false }

/-- Function `_verifyMaterialAt` (internal, no existence modifier).  The contract
collects at most four reason strings into a 10-slot scratch array and trims
it to `reasonCount`, which is exactly list concatenation in evaluation
order; `pass = (reasonCount == 0)`. -/
def verifyMaterialAtInternal (s : RegistryState) (materialId : String)
    (atTime : Nat) : Bool × List String :=
  let mat := s.materials materialId
  let statusReasons :=
    if mat.status = .REVOKED then ["MATERIAL_REVOKED"]
    else if mat.status = .QUARANTINED then ["MATERIAL_QUARANTINED"]
    else []
  let q := scanCredentials s (s.materialCredentials materialId)
  let identityReasons := if q.hasIdentity then [] else ["MISSING_IDENTITY"]
  let hasValidQC : Bool :=
    q.latestQcIssuedAt ≠ 0 ∧ q.latestQcValidUntil ≥ atTime ∧
      q.latestQcFromRevokedIssuer = false
  let qcReasons :=
    if hasValidQC then []
    else if q.latestQcIssuedAt = 0 then ["QC_MISSING"]
    else if q.latestQcFromRevokedIssuer then ["QC_ISSUER_REVOKED"]
    else ["QC_EXPIRED"]
  let transferReasons :=
    if (s.materialTransfers materialId).any (fun t => ¬ t.accepted)
    then ["TRANSFER_PENDING"] else []
  let reasons := statusReasons ++ identityReasons ++ qcReasons ++ transferReasons
  (reasons.isEmpty, reasons)

/-- External `verifyMaterialAt` (adds the `materialMustExist` modifier). -/
def verifyMaterialAt (s : RegistryState) (materialId : String) (atTime : Nat) :
    Except Err (Bool × List String) :=
  if s.materialExists materialId then
    .ok (verifyMaterialAtInternal s materialId atTime)
  else .error .MaterialNotFound

/-- One external call to a state-changing entry point of the contract:
the caller (`msg.sender`) and the call arguments. -/
inductive Op where
  | authorizeIssuer (sender issuer : Nat) (canIdentity canQC canUsageRights : Bool)
  | revokeIssuer (sender issuer : Nat)
  | registerMaterial (sender : Nat) (materialType : String) (metadataHash : Nat)
      (ownerOrg : String)
  | issueCredential (sender : Nat) (materialId : String) (credType : CredentialType)
      (commitmentHash validUntil : Nat) (artifactCid : String)
      (artifactHash : Nat) (issuerId : String)
  | revokeCredential (sender : Nat) (credentialId : String)
  | setStatusByOwner (sender : Nat) (materialId : String)
      (newStatus : MaterialStatus) (reasonHash : Nat)
  | setStatusByAuthority (sender : Nat) (materialId : String)
      (newStatus : MaterialStatus) (reasonHash : Nat)
  | initiateTransfer (sender : Nat) (materialId : String) (toAddress : Nat)
      (toOrg : String) (shipmentHash : Nat)
  | acceptTransfer (sender : Nat) (materialId : String)
deriving DecidableEq, Repr

/-- Discriminator for `setStatusByAuthority` calls. -/
def Op.isStatusAuthority : Op → Bool
  | .setStatusByAuthority .. => true
  | _ => false

/-- Runs one call at block time `now`; `Except.error` is a revert (the EVM
rolls the whole transaction back, so an error carries no post-state). -/
def apply (op : Op) (now : Nat) (s : RegistryState) : Except Err RegistryState :=
  match op with
  | .authorizeIssuer sender issuer canId canQC canUR =>
      authorizeIssuer sender issuer canId canQC canUR s
  | .revokeIssuer sender issuer => revokeIssuer sender now issuer s
  | .registerMaterial sender mt mh org =>
      (registerMaterial sender now mt mh org s).map Prod.fst
  | .issueCredential sender mid ct ch vu cid ah iid =>
      (issueCredential sender now mid ct ch vu cid ah iid s).map Prod.fst
  | .revokeCredential sender cid => revokeCredential sender now cid s
  | .setStatusByOwner sender mid ns rh => setStatusByOwner sender now mid ns rh s
  | .setStatusByAuthority sender mid ns rh =>
      setStatusByAuthority sender now mid ns rh s
  | .initiateTransfer sender mid toA toOrg sh =>
      (initiateTransfer sender now mid toA toOrg sh s).map Prod.fst
  | .acceptTransfer sender mid => acceptTransfer sender now mid s

/-- Like `apply`, keeping the pre-state when the call reverts (used to write
concrete traces; every step of every trace below is proved to succeed). -/
def applyD (op : Op) (now : Nat) (s : RegistryState) : RegistryState :=
  match apply op now s with
  | .ok s' => s'
  | .error _ => s

/-- States reachable from a fresh deployment through any sequence of calls
at arbitrary block times. -/
inductive Reachable : RegistryState → Prop where
  | init (deployer : Nat) : Reachable (initialState deployer)
  | step {s s' : RegistryState} (op : Op) (now : Nat) :
      Reachable s → apply op now s = .ok s' → Reachable s'

/-- Decimal value of a digit list (most significant digit first), folded
onto an accumulator; inverse of the `uint2str` digit loop. -/
def parseDigits : Nat → List Char → Nat
  | a, [] => a
  | a, c :: cs => parseDigits (a * 10 + (c.toNat - 48)) cs

/-- Decimal value of a whole string. -/
def parseStr (s : String) : Nat := parseDigits 0 s.data

/-- Number of decimal digits `uint2strAux` produces for `i`. -/
def digCount (i : Nat) : Nat :=
  if h : i = 0 then 0 else digCount (i / 10) + 1
decreasing_by exact Nat.div_lt_self (Nat.pos_of_ne_zero h) (by omega)

/-- The latest-QC data tracked by the `_verifyMaterialAt` loop. -/
def qcTriple (acc : QCScan) : Nat × Nat × Bool :=
  (acc.latestQcIssuedAt, acc.latestQcValidUntil, acc.latestQcFromRevokedIssuer)

/-- The material whose `materialHistory` an operation pushes to (`none` for
the two issuer-administration operations, which push no history). -/
def touched : Op → RegistryState → Option String
  | .authorizeIssuer .., _ => none
  | .revokeIssuer .., _ => none
  | .registerMaterial _ mt _ _, s => some (mintedId mt (s.materialCount + 1))
  | .issueCredential _ mid .., _ => some mid
  | .revokeCredential _ cid, s => some ((s.credentials cid).materialId)
  | .setStatusByOwner _ mid _ _, _ => some mid
  | .setStatusByAuthority _ mid _ _, _ => some mid
  | .initiateTransfer _ mid _ _ _, _ => some mid
  | .acceptTransfer _ mid, _ => some mid

/-!
Concrete traces used by counterexamples and witnesses.  Every step below is
proved to succeed where it is used, so each `applyD` equals the true
post-state of the call.  Address 0 deploys (and is admin), address 10
registers and owns the material, address 5 is an issuer with identity and
QC capability, address 6 an issuer with restricted capabilities, address 20
a transfer recipient.
-/

/-- Deployment by address 0. -/
def exS0 : RegistryState := initialState 0

/-- The material ID minted by the first registration. -/
def exMid : String := "bio:cell_line:1"

/-- Address 10 registers a CELL_LINE material at time 1. -/
def exS1 : RegistryState := applyD (.registerMaterial 10 "CELL_LINE" 1 "LabA") 1 exS0

/-- Admin authorizes issuer 5 with all capabilities. -/
def exS2 : RegistryState := applyD (.authorizeIssuer 0 5 true true true) 1 exS1

/-- Issuer 5 issues an IDENTITY credential (`cred:1`) at time 2, no expiry. -/
def exS3 : RegistryState := applyD (.issueCredential 5 exMid .IDENTITY 7 0 "cid" 9 "Org5") 2 exS2

/-- Issuer 5 issues a QC_MYCO credential (`cred:2`) at time 2 with
`validUntil = 0` (the "no expiry" encoding). -/
def exS4 : RegistryState := applyD (.issueCredential 5 exMid .QC_MYCO 8 0 "cid" 9 "Org5") 2 exS3

/-- Issuer 5 issues a QC_MYCO credential (`cred:2`) at time 2 expiring at 200. -/
def exT4 : RegistryState := applyD (.issueCredential 5 exMid .QC_MYCO 8 200 "cid" 9 "Org5") 2 exS3

/-- Issuer 5 issues a newer QC_MYCO credential (`cred:3`) at time 3 expiring
at 4 (so it is expired at time 100, while `cred:2` is still in window). -/
def exT5 : RegistryState := applyD (.issueCredential 5 exMid .QC_MYCO 8 4 "cid" 9 "Org5") 3 exT4

/-- Admin revokes the material through `setStatusByAuthority`. -/
def exU2 : RegistryState := applyD (.setStatusByAuthority 0 exMid .REVOKED 3) 2 exS1

/-- Admin re-activates the REVOKED material through `setStatusByAuthority`. -/
def exU3 : RegistryState := applyD (.setStatusByAuthority 0 exMid .ACTIVE 4) 3 exU2

/-- Admin revokes issuer 5 at time 2. -/
def exV3 : RegistryState := applyD (.revokeIssuer 0 5) 2 exS2

/-- Admin approves issuer 6 with every capability flag false. -/
def exW1 : RegistryState := applyD (.authorizeIssuer 0 6 false false false) 1 exS1

/-- Admin approves issuer 6 with QC capability only. -/
def exW2 : RegistryState := applyD (.authorizeIssuer 0 6 false true false) 1 exS1

/-- Owner 10 initiates a transfer of the material to address 20. -/
def exX2 : RegistryState := applyD (.initiateTransfer 10 exMid 20 "LabB" 11) 2 exS1

/-- Admin revokes the material while the transfer is still pending. -/
def exX3 : RegistryState := applyD (.setStatusByAuthority 0 exMid .REVOKED 3) 3 exX2

/-!
## Lemmas: `uint2str` is injective and minted IDs decode uniquely
-/

theorem digitChar_toNat (d : Nat) (h : d < 10) :
    (Char.ofNat (48 + d)).toNat = 48 + d := by
  interval_cases d <;> decide

theorem parseDigits_nil (a : Nat) : parseDigits a [] = a := rfl

theorem parseDigits_cons (a : Nat) (c : Char) (cs : List Char) :
    parseDigits a (c :: cs) = parseDigits (a * 10 + (c.toNat - 48)) cs := rfl

theorem parseDigits_append (a : Nat) (l₁ l₂ : List Char) :
    parseDigits a (l₁ ++ l₂) = parseDigits (parseDigits a l₁) l₂ := by
  induction l₁ generalizing a with
  | nil => rfl
  | cons c cs ih =>
    rw [List.cons_append, parseDigits_cons, parseDigits_cons, ih]

theorem uint2strGo_zero (fuel : Nat) (acc : List Char) :
    uint2strGo fuel 0 acc = acc := by
  cases fuel <;> rfl

theorem uint2strGo_fuel (i : Nat) :
    ∀ (f₁ f₂ : Nat) (acc : List Char), i ≤ f₁ → i ≤ f₂ →
      uint2strGo f₁ i acc = uint2strGo f₂ i acc := by
  induction i using Nat.strong_induction_on with
  | _ i ih =>
    intro f₁ f₂ acc h₁ h₂
    by_cases h : i = 0
    · subst h
      rw [uint2strGo_zero, uint2strGo_zero]
    · obtain ⟨g₁, rfl⟩ : ∃ g, f₁ = g + 1 := ⟨f₁ - 1, by omega⟩
      obtain ⟨g₂, rfl⟩ : ∃ g, f₂ = g + 1 := ⟨f₂ - 1, by omega⟩
      show (if i = 0 then acc
          else uint2strGo g₁ (i / 10) (Char.ofNat (48 + i % 10) :: acc)) =
        (if i = 0 then acc
          else uint2strGo g₂ (i / 10) (Char.ofNat (48 + i % 10) :: acc))
      rw [if_neg h, if_neg h]
      exact ih (i / 10) (Nat.div_lt_self (by omega) (by omega)) g₁ g₂ _
        (by omega) (by omega)

theorem uint2strAux_zero (l : List Char) : uint2strAux 0 l = l := rfl

theorem uint2strAux_pos (i : Nat) (l : List Char) (h : i ≠ 0) :
    uint2strAux i l = uint2strAux (i / 10) (Char.ofNat (48 + i % 10) :: l) := by
  obtain ⟨f, rfl⟩ : ∃ f, i = f + 1 := ⟨i - 1, by omega⟩
  show (if f + 1 = 0 then l
      else uint2strGo f ((f + 1) / 10) (Char.ofNat (48 + (f + 1) % 10) :: l)) =
    uint2strGo ((f + 1) / 10) ((f + 1) / 10) (Char.ofNat (48 + (f + 1) % 10) :: l)
  rw [if_neg h]
  exact uint2strGo_fuel ((f + 1) / 10) f ((f + 1) / 10) _ (by omega) (by omega)

theorem digCount_zero : digCount 0 = 0 := by
  conv_lhs => rw [digCount]
  exact dif_pos rfl

theorem digCount_pos (i : Nat) (h : i ≠ 0) : digCount i = digCount (i / 10) + 1 := by
  conv_lhs => rw [digCount]
  exact dif_neg h

theorem parseDigits_uint2strAux (i : Nat) :
    ∀ (a : Nat) (l : List Char),
      parseDigits a (uint2strAux i l) =
        parseDigits (a * 10 ^ digCount i + i) l := by
  induction i using Nat.strong_induction_on with
  | _ i ih =>
    intro a l
    by_cases h : i = 0
    · subst h
      rw [uint2strAux_zero, digCount_zero]
      simp
    · rw [uint2strAux_pos i l h,
        ih (i / 10) (Nat.div_lt_self (Nat.pos_of_ne_zero h) (by omega))]
      have hd : (Char.ofNat (48 + i % 10)).toNat = 48 + i % 10 :=
        digitChar_toNat (i % 10) (Nat.mod_lt i (by omega))
      rw [parseDigits_cons, hd]
      have hx : (a * 10 ^ digCount (i / 10) + i / 10) * 10 + (48 + i % 10 - 48)
          = a * 10 ^ (digCount (i / 10) + 1) + i := by
        have hmod : 10 * (i / 10) + i % 10 = i := Nat.div_add_mod i 10
        have h48 : 48 + i % 10 - 48 = i % 10 := by omega
        rw [h48, pow_succ]
        calc (a * 10 ^ digCount (i / 10) + i / 10) * 10 + i % 10
            = a * (10 ^ digCount (i / 10) * 10) + (10 * (i / 10) + i % 10) := by ring
          _ = a * (10 ^ digCount (i / 10) * 10) + i := by rw [hmod]
      rw [hx, digCount_pos i h]

theorem parseStr_uint2str (i : Nat) : parseStr (uint2str i) = i := by
  by_cases h : i = 0
  · subst h; rfl
  · unfold uint2str
    rw [if_neg h]
    show parseDigits 0 (uint2strAux i []) = i
    rw [parseDigits_uint2strAux, parseDigits_nil]
    simp

theorem uint2str_inj {n m : Nat} (h : uint2str n = uint2str m) : n = m := by
  have := congrArg parseStr h
  rwa [parseStr_uint2str, parseStr_uint2str] at this

theorem mintedId_pfx (mt : String) (n : Nat) :
    mintedId mt n =
      (if mt = "CELL_LINE" then "bio:cell_line:" else "bio:plasmid:") ++ uint2str n := by
  by_cases h : mt = "CELL_LINE"
  · simp only [mintedId, if_pos h]
    generalize uint2str n = u
    cases u
    rfl
  · simp only [mintedId, if_neg h]
    generalize uint2str n = u
    cases u
    rfl

theorem cell_plasmid_pfx_ne (d₁ d₂ : String) :
    ("bio:cell_line:" ++ d₁ : String) ≠ "bio:plasmid:" ++ d₂ := by
  intro h
  have hd' : "bio:cell_line:".data ++ d₁.data = "bio:plasmid:".data ++ d₂.data :=
    congrArg String.data h
  have h4 : ("bio:cell_line:".data ++ d₁.data)[4]? =
      ("bio:plasmid:".data ++ d₂.data)[4]? := congrArg (fun l => l[4]?) hd'
  rw [List.getElem?_append, List.getElem?_append,
    if_pos (by decide : (4:Nat) < "bio:cell_line:".data.length),
    if_pos (by decide : (4:Nat) < "bio:plasmid:".data.length)] at h4
  have hc : some 'c' = some 'p' := by
    calc some 'c' = "bio:cell_line:".data[4]? := by decide
      _ = "bio:plasmid:".data[4]? := h4
      _ = some 'p' := by decide
  simp at hc

theorem string_append_cancel {p d₁ d₂ : String} (h : p ++ d₁ = p ++ d₂) :
    d₁ = d₂ := by
  have hd : p.data ++ d₁.data = p.data ++ d₂.data := congrArg String.data h
  have h3 := List.append_cancel_left hd
  cases d₁
  cases d₂
  exact congrArg String.mk h3

theorem mintedId_inj {mt mt' : String} {n n' : Nat}
    (hmt : mt = "CELL_LINE" ∨ mt = "PLASMID")
    (hmt' : mt' = "CELL_LINE" ∨ mt' = "PLASMID")
    (h : mintedId mt n = mintedId mt' n') : n = n' := by
  rw [mintedId_pfx, mintedId_pfx] at h
  rcases hmt with h1 | h1 <;> rcases hmt' with h2 | h2 <;>
    subst h1 <;> subst h2 <;> simp at h
  · exact uint2str_inj (string_append_cancel h)
  · exact absurd h (cell_plasmid_pfx_ne _ _)
  · exact absurd h.symm (cell_plasmid_pfx_ne _ _)
  · exact uint2str_inj (string_append_cancel h)

/-!
## Lemmas: the latest-QC scan of `_verifyMaterialAt`
-/

theorem qcTriple_scanStep (s : RegistryState) (acc : QCScan) (cid : String) :
    qcTriple (scanStep s acc cid) =
      (if (s.credentials cid).credType = .QC_MYCO ∧
          (s.credentials cid).revoked = false ∧
          (s.credentials cid).issuedAt > acc.latestQcIssuedAt
       then ((s.credentials cid).issuedAt, (s.credentials cid).validUntil,
         revokedBeforeIssuance s (s.credentials cid))
       else qcTriple acc) := by
  by_cases h1 : (s.credentials cid).credType = .IDENTITY ∧
      (s.credentials cid).revoked = false ∧
      revokedBeforeIssuance s (s.credentials cid) = false <;>
    by_cases h2 : (s.credentials cid).credType = .QC_MYCO ∧
      (s.credentials cid).revoked = false <;>
    by_cases h3 : (s.credentials cid).issuedAt > acc.latestQcIssuedAt <;>
    simp [scanStep, qcTriple, h1, h2, h3]

theorem qcTriple_foldl_le (s : RegistryState) :
    ∀ (ids : List String) (acc : QCScan),
      (∀ cid ∈ ids, (s.credentials cid).credType = .QC_MYCO →
         (s.credentials cid).revoked = false →
         (s.credentials cid).issuedAt ≤ acc.latestQcIssuedAt) →
      qcTriple (ids.foldl (scanStep s) acc) = qcTriple acc := by
  intro ids
  induction ids with
  | nil => intro acc _; rfl
  | cons x rest ih =>
    intro acc hle
    have hcond : ¬ ((s.credentials x).credType = .QC_MYCO ∧
        (s.credentials x).revoked = false ∧
        (s.credentials x).issuedAt > acc.latestQcIssuedAt) := by
      rintro ⟨hq, hr, hgt⟩
      exact absurd hgt (not_lt.2 (hle x (List.mem_cons_self x rest) hq hr))
    have hstep : qcTriple (scanStep s acc x) = qcTriple acc := by
      rw [qcTriple_scanStep, if_neg hcond]
    have hlat : (scanStep s acc x).latestQcIssuedAt = acc.latestQcIssuedAt :=
      congrArg Prod.fst hstep
    calc qcTriple ((x :: rest).foldl (scanStep s) acc)
        = qcTriple (rest.foldl (scanStep s) (scanStep s acc x)) := by
          rw [List.foldl_cons]
      _ = qcTriple (scanStep s acc x) := by
          refine ih (scanStep s acc x) (fun cid hcid hq hr => ?_)
          rw [hlat]
          exact hle cid (List.mem_cons_of_mem x hcid) hq hr
      _ = qcTriple acc := hstep

theorem qcTriple_foldl_max (s : RegistryState) (c : Credential)
    (hqc : c.credType = .QC_MYCO) (hnr : c.revoked = false) :
    ∀ (ids : List String) (acc : QCScan),
      (∃ cid ∈ ids, s.credentials cid = c) →
      (∀ cid ∈ ids, (s.credentials cid).credType = .QC_MYCO →
         (s.credentials cid).revoked = false →
         s.credentials cid = c ∨ (s.credentials cid).issuedAt < c.issuedAt) →
      acc.latestQcIssuedAt < c.issuedAt →
      qcTriple (ids.foldl (scanStep s) acc) =
        (c.issuedAt, c.validUntil, revokedBeforeIssuance s c) := by
  intro ids
  induction ids with
  | nil =>
    rintro acc ⟨cid, hmem, _⟩ _ _
    simp at hmem
  | cons x rest ih =>
    intro acc hex hmax hlt
    rw [List.foldl_cons]
    by_cases hx : s.credentials x = c
    · have hstep : qcTriple (scanStep s acc x) =
          (c.issuedAt, c.validUntil, revokedBeforeIssuance s c) := by
        rw [qcTriple_scanStep,
          if_pos ⟨by rw [hx]; exact hqc, by rw [hx]; exact hnr, by rw [hx]; exact hlt⟩, hx]
      have hlat : (scanStep s acc x).latestQcIssuedAt = c.issuedAt :=
        congrArg Prod.fst hstep
      calc qcTriple (rest.foldl (scanStep s) (scanStep s acc x))
          = qcTriple (scanStep s acc x) := by
            refine qcTriple_foldl_le s rest (scanStep s acc x)
              (fun cid hcid hq hr => ?_)
            rw [hlat]
            rcases hmax cid (List.mem_cons_of_mem x hcid) hq hr with he | hlt'
            · rw [he]
            · exact Nat.le_of_lt hlt'
        _ = (c.issuedAt, c.validUntil, revokedBeforeIssuance s c) := hstep
    · have hcnew : (scanStep s acc x).latestQcIssuedAt < c.issuedAt := by
        by_cases hcond : ((s.credentials x).credType = .QC_MYCO ∧
            (s.credentials x).revoked = false ∧
            (s.credentials x).issuedAt > acc.latestQcIssuedAt)
        · have hstep : qcTriple (scanStep s acc x) =
              ((s.credentials x).issuedAt, (s.credentials x).validUntil,
                revokedBeforeIssuance s (s.credentials x)) := by
            rw [qcTriple_scanStep, if_pos hcond]
          have hl : (scanStep s acc x).latestQcIssuedAt = (s.credentials x).issuedAt :=
            congrArg Prod.fst hstep
          rw [hl]
          rcases hmax x (List.mem_cons_self x rest) hcond.1 hcond.2.1 with he | h'
          · exact absurd he hx
          · exact h'
        · have hstep : qcTriple (scanStep s acc x) = qcTriple acc := by
            rw [qcTriple_scanStep, if_neg hcond]
          have hl : (scanStep s acc x).latestQcIssuedAt = acc.latestQcIssuedAt :=
            congrArg Prod.fst hstep
          rw [hl]
          exact hlt
      obtain ⟨cid, hmem, hcv⟩ := hex
      rcases List.mem_cons.1 hmem with rfl | hmem'
      · exact absurd hcv hx
      · exact ih (scanStep s acc x) ⟨cid, hmem', hcv⟩
          (fun cid' hcid' hq hr => hmax cid' (List.mem_cons_of_mem x hcid') hq hr)
          hcnew

theorem scanCredentials_max (s : RegistryState) (ids : List String) (c : Credential)
    (hqc : c.credType = .QC_MYCO) (hnr : c.revoked = false)
    (hpos : 0 < c.issuedAt)
    (hex : ∃ cid ∈ ids, s.credentials cid = c)
    (hmax : ∀ cid ∈ ids, (s.credentials cid).credType = .QC_MYCO →
       (s.credentials cid).revoked = false →
       s.credentials cid = c ∨ (s.credentials cid).issuedAt < c.issuedAt) :
    (scanCredentials s ids).latestQcIssuedAt = c.issuedAt ∧
    (scanCredentials s ids).latestQcValidUntil = c.validUntil ∧
    (scanCredentials s ids).latestQcFromRevokedIssuer = revokedBeforeIssuance s c := by
  have hq := qcTriple_foldl_max s c hqc hnr ids
    { hasIdentity := false, latestQcIssuedAt := 0, latestQcValidUntil := 0
      latestQcFromRevokedIssuer := false } hex hmax hpos
  refine ⟨congrArg Prod.fst hq, ?_, ?_⟩
  · exact congrArg (fun t => t.2.1) hq
  · exact congrArg (fun t => t.2.2) hq

/-!
## Claim C1: the latest (strictly newest) non-revoked QC_MYCO credential,
when expired and from a non-revoked issuer, forces `pass = false` with
`QC_EXPIRED`, regardless of older still-unexpired QC credentials.
-/

/-- C1.  For every registry state, material and time `at_time`: if among the
material's non-revoked QC_MYCO credentials the strictly newest one `c`
(maximum `issued_at`; `issued_at` is a positive block timestamp) has
`valid_until < at_time` and its issuer was not revoked at or before its
`issued_at`, then `verifyMaterialAt` returns `pass = false` with
`QC_EXPIRED` among the reasons — even if some older non-revoked QC_MYCO
credential on the same material has `valid_until ≥ at_time` (the witness
below instantiates exactly that situation). -/
theorem latest_expired_qc_rejected (s : RegistryState) (materialId : String)
    (atTime : Nat) (c : Credential)
    (hexists : s.materialExists materialId = true)
    (hmem : ∃ cid ∈ s.materialCredentials materialId, s.credentials cid = c)
    (hqc : c.credType = .QC_MYCO) (hnr : c.revoked = false)
    (hpos : 0 < c.issuedAt)
    (hmax : ∀ cid ∈ s.materialCredentials materialId,
       (s.credentials cid).credType = .QC_MYCO →
       (s.credentials cid).revoked = false →
       s.credentials cid = c ∨ (s.credentials cid).issuedAt < c.issuedAt)
    (hissuer : ¬ (s.issuerRevokedAt c.issuer ≠ 0 ∧
       c.issuedAt ≥ s.issuerRevokedAt c.issuer))
    (hexp : c.validUntil < atTime) :
    verifyMaterialAt s materialId atTime =
      .ok (verifyMaterialAtInternal s materialId atTime) ∧
    (verifyMaterialAtInternal s materialId atTime).1 = false ∧
    "QC_EXPIRED" ∈ (verifyMaterialAtInternal s materialId atTime).2 := by
  obtain ⟨h1, h2, h3⟩ := scanCredentials_max s (s.materialCredentials materialId)
    c hqc hnr hpos hmem hmax
  have hrevc : revokedBeforeIssuance s c = false := by
    simp only [revokedBeforeIssuance, decide_eq_false_iff_not]
    exact hissuer
  rw [hrevc] at h3
  have hne : c.issuedAt ≠ 0 := Nat.pos_iff_ne_zero.mp hpos
  have hnge : ¬ (c.validUntil ≥ atTime) := not_le.2 hexp
  refine ⟨by simp [verifyMaterialAt, hexists], ?_, ?_⟩ <;>
    simp only [verifyMaterialAtInternal, h1, h2, h3] <;>
    simp [hne, hnge]

/-- Witness for C1, on the concrete trace `exT5`: the material has an older
QC (`cred:2`, `valid_until = 200`, still in window at time 100) and a newer
expired QC (`cred:3`, `valid_until = 4`); verification at time 100 fails
with `QC_EXPIRED`. -/
theorem latest_expired_qc_rejected_witness :
    ((exT5.credentials "cred:2").credType = .QC_MYCO ∧
     (exT5.credentials "cred:2").revoked = false ∧
     (exT5.credentials "cred:2").validUntil ≥ 100) ∧
    (verifyMaterialAtInternal exT5 exMid 100).1 = false ∧
    "QC_EXPIRED" ∈ (verifyMaterialAtInternal exT5 exMid 100).2 := by
  have h := latest_expired_qc_rejected exT5 exMid 100
    (exT5.credentials "cred:3")
    (by decide) (by decide) (by decide) (by decide) (by decide)
    (by decide) (by decide) (by decide)
  exact ⟨⟨by decide, by decide, by decide⟩, h.2.1, h.2.2⟩

/-!
## Claim C3: `valid_until = 0` on the latest QC.  The claim says `0` denotes
"no expiry" so `QC_EXPIRED` is never emitted; the code compares
`latestQcValidUntil >= atTime` with no special case for `0`, so such a QC is
reported expired at every positive time.
-/

/-- Counterexample to C3.  On the trace `exS4` the material's only (hence
latest) QC_MYCO credential `cred:2` has `valid_until = 0`, is not revoked,
and its issuer was never revoked, yet verification at time 100 emits
`QC_EXPIRED` (and nothing else). -/
theorem qc_zero_validUntil_counterexample :
    (exS4.credentials "cred:2").credType = .QC_MYCO ∧
    (exS4.credentials "cred:2").validUntil = 0 ∧
    (exS4.credentials "cred:2").revoked = false ∧
    exS4.issuerRevokedAt (exS4.credentials "cred:2").issuer = 0 ∧
    exS4.materialCredentials exMid = ["cred:1", "cred:2"] ∧
    (exS4.credentials "cred:1").credType = .IDENTITY ∧
    verifyMaterialAtInternal exS4 exMid 100 = (false, ["QC_EXPIRED"]) := by
  decide

/-- C3 as amended.  If the material's strictly newest non-revoked QC_MYCO
credential `c` has `valid_until = 0` and its issuer was not revoked at or
before its `issued_at`, then `_verifyMaterialAt` emits `QC_EXPIRED` exactly
when `0 < at_time`: the code implements `valid_until < at_time` with no
special "no expiry" reading of `0`, so only `at_time = 0` avoids
`QC_EXPIRED`. -/
theorem qc_zero_validUntil_expired (s : RegistryState) (materialId : String)
    (atTime : Nat) (c : Credential)
    (hmem : ∃ cid ∈ s.materialCredentials materialId, s.credentials cid = c)
    (hqc : c.credType = .QC_MYCO) (hnr : c.revoked = false)
    (hpos : 0 < c.issuedAt)
    (hmax : ∀ cid ∈ s.materialCredentials materialId,
       (s.credentials cid).credType = .QC_MYCO →
       (s.credentials cid).revoked = false →
       s.credentials cid = c ∨ (s.credentials cid).issuedAt < c.issuedAt)
    (hissuer : ¬ (s.issuerRevokedAt c.issuer ≠ 0 ∧
       c.issuedAt ≥ s.issuerRevokedAt c.issuer))
    (hvu : c.validUntil = 0) :
    ("QC_EXPIRED" ∈ (verifyMaterialAtInternal s materialId atTime).2 ↔
      0 < atTime) := by
  obtain ⟨h1, h2, h3⟩ := scanCredentials_max s (s.materialCredentials materialId)
    c hqc hnr hpos hmem hmax
  have hrevc : revokedBeforeIssuance s c = false := by
    simp only [revokedBeforeIssuance, decide_eq_false_iff_not]
    exact hissuer
  rw [hrevc] at h3
  rw [hvu] at h2
  have hne : c.issuedAt ≠ 0 := Nat.pos_iff_ne_zero.mp hpos
  constructor
  · intro hmemr
    by_contra hzero
    have hz : atTime = 0 := by omega
    subst hz
    simp only [verifyMaterialAtInternal, h1, h2, h3] at hmemr
    simp [hne] at hmemr
    revert hmemr
    split_ifs <;> simp_all
  · intro hat
    have hnge : ¬ ((0:Nat) ≥ atTime) := by omega
    simp only [verifyMaterialAtInternal, h1, h2, h3]
    simp [hne, hnge]

/-- Witness for the amended C3, on the trace `exS4` at time 100: the
`valid_until = 0` QC is reported `QC_EXPIRED` because `100 > 0`. -/
theorem qc_zero_validUntil_expired_witness :
    (exS4.credentials "cred:2").validUntil = 0 ∧
    "QC_EXPIRED" ∈ (verifyMaterialAtInternal exS4 exMid 100).2 := by
  have h := qc_zero_validUntil_expired exS4 exMid 100
    (exS4.credentials "cred:2")
    (by decide) (by decide) (by decide) (by decide) (by decide)
    (by decide) (by decide)
  exact ⟨by decide, h.mpr (by omega)⟩

/-!
## Inversion lemmas: a successful call implies its guards held and yields an
explicit post-state
-/

theorem apply_authorizeIssuer_ok {sender issuer : Nat} {a b c : Bool}
    {now : Nat} {s s' : RegistryState}
    (hs : apply (.authorizeIssuer sender issuer a b c) now s = .ok s') :
    sender = s.admin ∧
    s' = { s with
      issuerPermissions := updA s.issuerPermissions issuer
        { isApproved := true, canIssueIdentity := a, canIssueQC := b
          canIssueUsageRights := c }
      issuerRevokedAt := updA s.issuerRevokedAt issuer 0 } := by
  simp only [apply, authorizeIssuer] at hs
  split_ifs at hs with h
  simp only [Except.ok.injEq] at hs
  exact ⟨not_not.mp h, hs.symm⟩

theorem apply_revokeIssuer_ok {sender issuer : Nat} {now : Nat}
    {s s' : RegistryState}
    (hs : apply (.revokeIssuer sender issuer) now s = .ok s') :
    sender = s.admin ∧
    s' = { s with
      issuerPermissions := updA s.issuerPermissions issuer
        { s.issuerPermissions issuer with isApproved := false }
      issuerRevokedAt := updA s.issuerRevokedAt issuer now } := by
  simp only [apply, revokeIssuer] at hs
  split_ifs at hs with h
  simp only [Except.ok.injEq] at hs
  exact ⟨not_not.mp h, hs.symm⟩

theorem apply_registerMaterial_ok {sender : Nat} {mt : String} {mh : Nat}
    {org : String} {now : Nat} {s s' : RegistryState}
    (hs : apply (.registerMaterial sender mt mh org) now s = .ok s') :
    (mt = "CELL_LINE" ∨ mt = "PLASMID") ∧ mh ≠ 0 ∧
    s.materialExists (mintedId mt (s.materialCount + 1)) = false ∧
    s' = { s with
      materialCount := s.materialCount + 1
      materials := updS s.materials (mintedId mt (s.materialCount + 1))
        { materialId := mintedId mt (s.materialCount + 1), materialType := mt
          metadataHash := mh, owner := sender, ownerOrg := org
          status := .ACTIVE, createdAt := now, updatedAt := now }
      materialExists := updS s.materialExists (mintedId mt (s.materialCount + 1)) true
      materialHistory := updS s.materialHistory (mintedId mt (s.materialCount + 1))
        (s.materialHistory (mintedId mt (s.materialCount + 1)) ++
          [.registered sender now]) } := by
  simp only [apply, registerMaterial] at hs
  split_ifs at hs with h1 h2 h3 <;> simp [Except.map] at hs
  refine ⟨?_, h2, eq_false_of_ne_true h3, hs.symm⟩
  by_cases hcl : mt = "CELL_LINE"
  · exact Or.inl hcl
  · exact Or.inr (by tauto)

theorem apply_issueCredential_ok {sender : Nat} {mid : String}
    {ct : CredentialType} {ch vu : Nat} {cid : String} {ah : Nat}
    {iid : String} {now : Nat} {s s' : RegistryState}
    (hs : apply (.issueCredential sender mid ct ch vu cid ah iid) now s = .ok s') :
    (s.issuerPermissions sender).isApproved = true ∧
    s.issuerRevokedAt sender = 0 ∧
    s.materialExists mid = true ∧ ch ≠ 0 ∧ ah ≠ 0 ∧
    ¬ (vu ≠ 0 ∧ vu ≤ now) ∧
    capFor (s.issuerPermissions sender) ct = true ∧
    s' = { s with
      credentialCount := s.credentialCount + 1
      credentials := updS s.credentials ("cred:" ++ uint2str (s.credentialCount + 1))
        { credentialId := "cred:" ++ uint2str (s.credentialCount + 1)
          materialId := mid, credType := ct, commitmentHash := ch
          issuer := sender, issuerId := iid, issuedAt := now
          validUntil := vu, artifactCid := cid, artifactHash := ah
          revoked := false }
      materialCredentials := updS s.materialCredentials mid
        (s.materialCredentials mid ++ ["cred:" ++ uint2str (s.credentialCount + 1)])
      materialHistory := updS s.materialHistory mid
        (s.materialHistory mid ++
          [.credentialIssued ("cred:" ++ uint2str (s.credentialCount + 1)) ct now]) } := by
  simp only [apply, issueCredential] at hs
  split_ifs at hs with h1 h2 h3 h4 h5 h6 h7 <;> simp [Except.map] at hs
  exact ⟨h1, by simpa using h2, h3, h4, h5, h6, h7, hs.symm⟩

theorem apply_revokeCredential_ok {sender : Nat} {cid : String} {now : Nat}
    {s s' : RegistryState}
    (hs : apply (.revokeCredential sender cid) now s = .ok s') :
    (s.credentials cid).credentialId ≠ "" ∧
    ((s.credentials cid).issuer = sender ∨ sender = s.admin) ∧
    (s.credentials cid).revoked = false ∧
    s' = { s with
      credentials := updS s.credentials cid
        { s.credentials cid with revoked := true }
      materialHistory := updS s.materialHistory (s.credentials cid).materialId
        (s.materialHistory (s.credentials cid).materialId ++
          [.credentialRevoked cid now]) } := by
  simp only [apply, revokeCredential] at hs
  split_ifs at hs with h1 h2 h3
  simp only [Except.ok.injEq] at hs
  exact ⟨h1, by tauto, eq_false_of_ne_true h3, hs.symm⟩

theorem apply_setStatusByOwner_ok {sender : Nat} {mid : String}
    {ns : MaterialStatus} {rh now : Nat} {s s' : RegistryState}
    (hs : apply (.setStatusByOwner sender mid ns rh) now s = .ok s') :
    s.materialExists mid = true ∧
    (s.materials mid).owner = sender ∧
    ns ≠ .REVOKED ∧ (s.materials mid).status ≠ .REVOKED ∧
    s' = { s with
      materials := updS s.materials mid
        { s.materials mid with status := ns, updatedAt := now }
      materialHistory := updS s.materialHistory mid
        (s.materialHistory mid ++ [.statusOwner ns rh now]) } := by
  simp only [apply, setStatusByOwner] at hs
  split_ifs at hs with h1 h2 h3 h4
  simp only [Except.ok.injEq] at hs
  exact ⟨eq_true_of_ne_false (by simpa using h1), not_not.mp h2, h3, h4,
    hs.symm⟩

theorem apply_setStatusByAuthority_ok {sender : Nat} {mid : String}
    {ns : MaterialStatus} {rh now : Nat} {s s' : RegistryState}
    (hs : apply (.setStatusByAuthority sender mid ns rh) now s = .ok s') :
    s.materialExists mid = true ∧
    (sender = s.admin ∨
      ((s.issuerPermissions sender).isApproved ∧
       (s.issuerPermissions sender).canIssueQC ∧
       s.issuerRevokedAt sender = 0)) ∧
    s' = { s with
      materials := updS s.materials mid
        { s.materials mid with status := ns, updatedAt := now }
      materialHistory := updS s.materialHistory mid
        (s.materialHistory mid ++ [.statusAuthority sender ns rh now]) } := by
  simp only [apply, setStatusByAuthority] at hs
  split_ifs at hs with h1 h2
  simp only [Except.ok.injEq] at hs
  exact ⟨eq_true_of_ne_false (by simpa using h1), h2, hs.symm⟩

theorem apply_initiateTransfer_ok {sender : Nat} {mid : String} {toA : Nat}
    {toOrg : String} {sh now : Nat} {s s' : RegistryState}
    (hs : apply (.initiateTransfer sender mid toA toOrg sh) now s = .ok s') :
    s.materialExists mid = true ∧
    (s.materials mid).owner = sender ∧
    (s.materials mid).status = .ACTIVE ∧
    ((s.materialTransfers mid).getLast? = none ∨
      ∃ t, (s.materialTransfers mid).getLast? = some t ∧ t.accepted = true) ∧
    s' = { s with
      transferCount := s.transferCount + 1
      materialTransfers := updS s.materialTransfers mid
        (s.materialTransfers mid ++
          [{ transferId := "xfer:" ++ uint2str (s.transferCount + 1)
             materialId := mid, fromAddress := sender
             fromOrg := (s.materials mid).ownerOrg, toAddress := toA
             toOrg := toOrg, shipmentHash := sh, timestamp := now
             accepted := false }])
      materialHistory := updS s.materialHistory mid
        (s.materialHistory mid ++
          [.transferInitiated ("xfer:" ++ uint2str (s.transferCount + 1)) toA now]) } := by
  simp only [apply, initiateTransfer] at hs
  split_ifs at hs with h1 h2 h3 h4 <;> simp [Except.map] at hs
  refine ⟨h1, not_not.mp h2, not_not.mp h3, ?_, hs.symm⟩
  cases hlast : (s.materialTransfers mid).getLast? with
  | none => exact Or.inl rfl
  | some t =>
    refine Or.inr ⟨t, rfl, ?_⟩
    rw [hlast] at h4
    simpa using h4

theorem apply_acceptTransfer_ok {sender : Nat} {mid : String} {now : Nat}
    {s s' : RegistryState}
    (hs : apply (.acceptTransfer sender mid) now s = .ok s') :
    s.materialExists mid = true ∧
    ∃ p, (s.materialTransfers mid).getLast? = some p ∧
      p.accepted = false ∧ p.toAddress = sender ∧
      s' = { s with
        materialTransfers := updS s.materialTransfers mid
          ((s.materialTransfers mid).dropLast ++ [{ p with accepted := true }])
        materials := updS s.materials mid
          { s.materials mid with owner := sender, ownerOrg := p.toOrg, updatedAt := now }
        materialHistory := updS s.materialHistory mid
          (s.materialHistory mid ++
            [.transferAccepted p.transferId sender now]) } := by
  simp only [apply, acceptTransfer] at hs
  split_ifs at hs with h1
  split at hs
  · simp at hs
  · next p hp =>
    split_ifs at hs with h2 h3
    simp only [Except.ok.injEq] at hs
    exact ⟨eq_true_of_ne_false (by simpa using h1),
      p, hp, eq_false_of_ne_true h2, not_not.mp h3, hs.symm⟩

/-!
## Claim C2: is REVOKED terminal?  `setStatusByOwner` refuses to leave
REVOKED, but `setStatusByAuthority` writes any status unconditionally — the
admin can take a REVOKED material back to ACTIVE.
-/

/-- Counterexample to C2.  A reachable state (deploy, register,
authority-revoke) holds a REVOKED material, and one further
`setStatusByAuthority` call by the admin succeeds and leaves the material
ACTIVE. -/
theorem revoked_not_terminal_counterexample :
    Reachable exU2 ∧
    (exU2.materials exMid).status = .REVOKED ∧
    apply (.setStatusByAuthority 0 exMid .ACTIVE 4) 3 exU2 = .ok exU3 ∧
    (exU3.materials exMid).status = .ACTIVE := by
  refine ⟨?_, by decide, rfl, by decide⟩
  exact .step (.setStatusByAuthority 0 exMid .REVOKED 3) 2
    (.step (.registerMaterial 10 "CELL_LINE" 1 "LabA") 1 (.init 0) rfl) rfl

/-- C2 as amended.  REVOKED is terminal for every operation except
`setStatusByAuthority`: if a material exists and is REVOKED, then any
successful call that is not a `setStatusByAuthority` call leaves it REVOKED
(`setStatusByOwner` in particular can never move it, and
`setStatusByAuthority` by the admin or an approved QC issuer can set any
status, including back to ACTIVE or QUARANTINED). -/
theorem revoked_terminal_except_authority (op : Op) (now : Nat)
    (s s' : RegistryState) (m : String)
    (hex : s.materialExists m = true)
    (hrev : (s.materials m).status = .REVOKED)
    (hop : op.isStatusAuthority = false)
    (hs : apply op now s = .ok s') :
    (s'.materials m).status = .REVOKED := by
  cases op with
  | authorizeIssuer sender issuer a b c =>
    obtain ⟨-, rfl⟩ := apply_authorizeIssuer_ok hs
    exact hrev
  | revokeIssuer sender issuer =>
    obtain ⟨-, rfl⟩ := apply_revokeIssuer_ok hs
    exact hrev
  | registerMaterial sender mt mh org =>
    obtain ⟨-, -, hfresh, rfl⟩ := apply_registerMaterial_ok hs
    have hne : m ≠ mintedId mt (s.materialCount + 1) := by
      intro he
      rw [he, hfresh] at hex
      exact Bool.noConfusion hex
    simpa [updS, hne] using hrev
  | issueCredential sender mid ct ch vu cid ah iid =>
    obtain ⟨-, -, -, -, -, -, -, rfl⟩ := apply_issueCredential_ok hs
    exact hrev
  | revokeCredential sender cid =>
    obtain ⟨-, -, -, rfl⟩ := apply_revokeCredential_ok hs
    exact hrev
  | setStatusByOwner sender mid ns rh =>
    obtain ⟨-, -, -, hnotrev, rfl⟩ := apply_setStatusByOwner_ok hs
    by_cases he : m = mid
    · subst he
      exact absurd hrev hnotrev
    · simpa [updS, he] using hrev
  | setStatusByAuthority sender mid ns rh =>
    simp [Op.isStatusAuthority] at hop
  | initiateTransfer sender mid toA toOrg sh =>
    obtain ⟨-, -, -, -, rfl⟩ := apply_initiateTransfer_ok hs
    exact hrev
  | acceptTransfer sender mid =>
    obtain ⟨-, p, -, -, -, rfl⟩ := apply_acceptTransfer_ok hs
    by_cases he : m = mid
    · subst he
      simpa [updS] using hrev
    · simpa [updS, he] using hrev

/-- Witness for the amended C2: on the reachable REVOKED state `exU2`, a
successful `authorizeIssuer` call (a non-authority-status operation) leaves
the material REVOKED. -/
theorem revoked_terminal_except_authority_witness :
    ((applyD (.authorizeIssuer 0 7 true true true) 3 exU2).materials exMid).status
      = .REVOKED :=
  revoked_terminal_except_authority (.authorizeIssuer 0 7 true true true) 3 exU2
    (applyD (.authorizeIssuer 0 7 true true true) 3 exU2) exMid
    (by decide) (by decide) (by decide) rfl

/-!
## Claim C6: `setStatusByOwner(_, REVOKED, _)` always fails — but with
`NotAuthorizedForStatus` only when the `onlyMaterialOwner` modifier passes;
an absent material gives `MaterialNotFound` and a non-owner caller gives
`NotMaterialOwner`.
-/

/-- Counterexample to C6.  On `exS1` the material exists, yet a
`setStatusByOwner(…, REVOKED, …)` call by non-owner 99 fails with
`NotMaterialOwner`, not `NotAuthorizedForStatus` (the claim asserts
`NotAuthorizedForStatus` for every caller). -/
theorem owner_revoke_error_counterexample :
    exS1.materialExists exMid = true ∧
    apply (.setStatusByOwner 99 exMid .REVOKED 7) 2 exS1 =
      .error .NotMaterialOwner ∧
    Err.NotMaterialOwner ≠ Err.NotAuthorizedForStatus := by
  exact ⟨by decide, rfl, by decide⟩

/-- C6 as amended.  For every state, caller, material and reason hash, the
call `setStatusByOwner(material, REVOKED, reason)` fails (it never returns a
post-state), and when the material exists and the caller is its owner the
error is exactly `NotAuthorizedForStatus`; otherwise the modifier errors
(`MaterialNotFound` / `NotMaterialOwner`) fire first. -/
theorem owner_can_never_revoke (s : RegistryState) (sender : Nat)
    (mid : String) (rh now : Nat) :
    (∃ e, apply (.setStatusByOwner sender mid .REVOKED rh) now s = .error e) ∧
    (s.materialExists mid = true → (s.materials mid).owner = sender →
      apply (.setStatusByOwner sender mid .REVOKED rh) now s =
        .error .NotAuthorizedForStatus) := by
  constructor
  · cases hres : apply (.setStatusByOwner sender mid .REVOKED rh) now s with
    | error e => exact ⟨e, rfl⟩
    | ok s' =>
      obtain ⟨-, -, hne, -, -⟩ := apply_setStatusByOwner_ok hres
      exact absurd rfl hne
  · intro hex hown
    simp only [apply, setStatusByOwner]
    rw [if_neg (by simp [hex]), if_neg (by simp [hown])]
    simp

/-- Witness for the amended C6: the owner (address 10) of the registered
material attempts REVOKED and gets `NotAuthorizedForStatus`. -/
theorem owner_can_never_revoke_witness :
    apply (.setStatusByOwner 10 exMid .REVOKED 7) 2 exS1 =
      .error .NotAuthorizedForStatus :=
  (owner_can_never_revoke exS1 10 exMid 7 2).2 (by decide) (by decide)

/-!
## Claim C9: `acceptTransfer` never consults the material's status — only
the existence check, a pending tail transfer and the recipient check gate
it, so a QUARANTINED or REVOKED material can still change hands.
-/

/-- C9.  For every state whose material exists and whose latest transfer is
pending and addressed to the caller, `acceptTransfer` succeeds — with no
hypothesis at all on the material's status — marks exactly the latest
transfer accepted, and reassigns ownership to the caller, leaving the
status unchanged. -/
theorem acceptTransfer_ignores_status (s : RegistryState) (sender : Nat)
    (mid : String) (now : Nat) (p : Transfer)
    (hex : s.materialExists mid = true)
    (hlast : (s.materialTransfers mid).getLast? = some p)
    (hpend : p.accepted = false)
    (hto : p.toAddress = sender) :
    ∃ s', apply (.acceptTransfer sender mid) now s = .ok s' ∧
      (s'.materials mid).owner = sender ∧
      (s'.materials mid).ownerOrg = p.toOrg ∧
      (s'.materials mid).status = (s.materials mid).status ∧
      s'.materialTransfers mid =
        (s.materialTransfers mid).dropLast ++ [{ p with accepted := true }] := by
  simp only [apply, acceptTransfer]
  rw [if_neg (by simp [hex]), hlast]
  simp [hpend, hto, updS]

/-- Witness for C9: on the reachable trace `exX3` the material is REVOKED
with a pending transfer to address 20, and 20's `acceptTransfer` succeeds
and makes 20 the owner while the status stays REVOKED. -/
theorem acceptTransfer_ignores_status_witness :
    (exX3.materials exMid).status = .REVOKED ∧
    ∃ s', apply (.acceptTransfer 20 exMid) 4 exX3 = .ok s' ∧
      (s'.materials exMid).owner = 20 ∧
      (s'.materials exMid).status = (exX3.materials exMid).status := by
  have h := acceptTransfer_ignores_status exX3 20 exMid 4
    { transferId := "xfer:1", materialId := exMid, fromAddress := 10
      fromOrg := "LabA", toAddress := 20, toOrg := "LabB", shipmentHash := 11
      timestamp := 2, accepted := false }
    (by decide) (by decide) (by decide) (by decide)
  obtain ⟨s', h1, h2, h3, h4, h5⟩ := h
  exact ⟨by decide, s', h1, h2, h4⟩

/-!
## Claim C4: issuer-revocation boundary.  The in-verification boundary
(`issuer_revoked_at ≠ 0 ∧ issued_at ≥ issuer_revoked_at`) matches the
claim, but after `revokeIssuer` a subsequent `issueCredential` reverts
`NotApprovedIssuer`, not `IssuerRevoked`: `revokeIssuer` also clears
`isApproved`, and `onlyApprovedIssuer` checks approval first.  The
repository's own fuzz test (`testFuzz_revokedIssuerCannotIssue`) expects
`IssuerRevoked.selector` at exactly this input, so the code contradicts its
own test suite.
-/

/-- C4, evaluated at the failing input.  After `revokeIssuer(5)` at time 2
(state `exV3`), issuer 5's revocation timestamp is set and its approval is
cleared, and its `issueCredential` call at time 3 fails with
`NotApprovedIssuer` — not the `IssuerRevoked` that the claim (and the
repository's fuzz test) expect. -/
theorem revoked_issuer_error_code :
    exV3.issuerRevokedAt 5 = 2 ∧
    (exV3.issuerPermissions 5).isApproved = false ∧
    apply (.issueCredential 5 exMid .IDENTITY 7 0 "cid" 9 "Org5") 3 exV3 =
      .error .NotApprovedIssuer ∧
    Err.NotApprovedIssuer ≠ Err.IssuerRevoked :=
  ⟨by decide, by decide, rfl, by decide⟩

/-!
## Claim C8: capability errors versus the other checks.  The claim puts
`NotAuthorizedForCredentialType` before `MaterialNotFound` and the hash
checks; the code runs `materialMustExist` and the input sanity checks
first.
-/

/-- Counterexample to C8.  Issuer 6 is approved, non-revoked and has every
capability flag false, yet its `issueCredential` call on an absent material
fails with `MaterialNotFound`, not `NotAuthorizedForCredentialType`. -/
theorem capability_error_order_counterexample :
    (exW1.issuerPermissions 6).isApproved = true ∧
    exW1.issuerRevokedAt 6 = 0 ∧
    capFor (exW1.issuerPermissions 6) .IDENTITY = false ∧
    exW1.materialExists "nope" = false ∧
    apply (.issueCredential 6 "nope" .IDENTITY 7 0 "cid" 9 "Org6") 2 exW1 =
      .error .MaterialNotFound ∧
    Err.MaterialNotFound ≠ Err.NotAuthorizedForCredentialType :=
  ⟨by decide, by decide, by decide, by decide, rfl, by decide⟩

/-- C8 as amended.  An approved, non-revoked issuer whose capability flag
for the requested type is false fails with
`NotAuthorizedForCredentialType` — provided the earlier checks pass: the
material exists, both hashes are non-zero, and `valid_until` is `0` or in
the future.  (When the material is absent or a hash is zero, those errors
fire first, contrary to the spec's stated order.) -/
theorem capability_checked_after_input_checks (s : RegistryState)
    (sender : Nat) (mid : String) (ct : CredentialType) (ch vu : Nat)
    (cid : String) (ah : Nat) (iid : String) (now : Nat)
    (happ : (s.issuerPermissions sender).isApproved = true)
    (hrev : s.issuerRevokedAt sender = 0)
    (hex : s.materialExists mid = true)
    (hch : ch ≠ 0) (hah : ah ≠ 0)
    (hvu : vu = 0 ∨ now < vu)
    (hcap : capFor (s.issuerPermissions sender) ct = false) :
    apply (.issueCredential sender mid ct ch vu cid ah iid) now s =
      .error .NotAuthorizedForCredentialType := by
  have hnvu : ¬ (vu ≠ 0 ∧ vu ≤ now) := by
    rintro ⟨hne0, hle⟩
    rcases hvu with h | h
    · exact hne0 h
    · omega
  simp only [apply, issueCredential]
  rw [if_neg (by simp [happ]), if_neg (by simp [hrev]), if_neg (by simp [hex]),
    if_neg hch, if_neg hah, if_neg hnvu, if_pos (by simp [hcap])]
  rfl

/-- Witness for the amended C8: QC-only issuer 6 (state `exW2`) requests an
IDENTITY credential on the existing material and gets
`NotAuthorizedForCredentialType`. -/
theorem capability_checked_after_input_checks_witness :
    apply (.issueCredential 6 exMid .IDENTITY 7 0 "cid" 9 "Org6") 2 exW2 =
      .error .NotAuthorizedForCredentialType :=
  capability_checked_after_input_checks exW2 6 exMid .IDENTITY 7 0 "cid" 9
    "Org6" 2 (by decide) (by decide) (by decide) (by decide) (by decide)
    (Or.inl rfl) (by decide)

/-!
## Claim C7: history appends.  Seven of the nine operations append exactly
one history entry to the affected material on success; `authorizeIssuer`
and `revokeIssuer` touch no material and append none (contradicting the
claim that every §4.3 operation appends one).  Failure is a revert, which
rolls back every mutation, so a failed call never appends.
-/

/-- Counterexample to C7.  The `authorizeIssuer` call from `exS1` to `exS2`
succeeds, yet the whole `materialHistory` mapping — in particular the
history of the registered material — is unchanged (length grows by 0, not
1). -/
theorem authorizeIssuer_no_history_counterexample :
    apply (.authorizeIssuer 0 5 true true true) 1 exS1 = .ok exS2 ∧
    exS2.materialHistory = exS1.materialHistory ∧
    (exS2.materialHistory exMid).length = (exS1.materialHistory exMid).length :=
  ⟨rfl, rfl, rfl⟩

/-- C7 as amended.  Every successful operation other than `authorizeIssuer`
and `revokeIssuer` appends exactly one entry to the touched material's
history and leaves every other history unchanged; successful
`authorizeIssuer` / `revokeIssuer` calls leave every history unchanged.  A
failed call is a revert and leaves the whole state unchanged (in this
embedding an error carries no post-state at all). -/
theorem history_append_per_op (op : Op) (now : Nat) (s s' : RegistryState)
    (hs : apply op now s = .ok s') :
    (∀ m, touched op s = some m →
       (s'.materialHistory m).length = (s.materialHistory m).length + 1 ∧
       ∀ m', m' ≠ m → s'.materialHistory m' = s.materialHistory m') ∧
    (touched op s = none → s'.materialHistory = s.materialHistory) := by
  cases op with
  | authorizeIssuer sender issuer a b c =>
    obtain ⟨-, rfl⟩ := apply_authorizeIssuer_ok hs
    exact ⟨fun m hm => by simp [touched] at hm, fun _ => rfl⟩
  | revokeIssuer sender issuer =>
    obtain ⟨-, rfl⟩ := apply_revokeIssuer_ok hs
    exact ⟨fun m hm => by simp [touched] at hm, fun _ => rfl⟩
  | registerMaterial sender mt mh org =>
    obtain ⟨-, -, -, rfl⟩ := apply_registerMaterial_ok hs
    refine ⟨fun m hm => ?_, fun hm => by simp [touched] at hm⟩
    simp only [touched, Option.some.injEq] at hm
    subst hm
    exact ⟨by simp [updS], fun m' hm' => by simp [updS, hm']⟩
  | issueCredential sender mid ct ch vu cid ah iid =>
    obtain ⟨-, -, -, -, -, -, -, rfl⟩ := apply_issueCredential_ok hs
    refine ⟨fun m hm => ?_, fun hm => by simp [touched] at hm⟩
    simp only [touched, Option.some.injEq] at hm
    subst hm
    exact ⟨by simp [updS], fun m' hm' => by simp [updS, hm']⟩
  | revokeCredential sender cid =>
    obtain ⟨-, -, -, rfl⟩ := apply_revokeCredential_ok hs
    refine ⟨fun m hm => ?_, fun hm => by simp [touched] at hm⟩
    simp only [touched, Option.some.injEq] at hm
    subst hm
    exact ⟨by simp [updS], fun m' hm' => by simp [updS, hm']⟩
  | setStatusByOwner sender mid ns rh =>
    obtain ⟨-, -, -, -, rfl⟩ := apply_setStatusByOwner_ok hs
    refine ⟨fun m hm => ?_, fun hm => by simp [touched] at hm⟩
    simp only [touched, Option.some.injEq] at hm
    subst hm
    exact ⟨by simp [updS], fun m' hm' => by simp [updS, hm']⟩
  | setStatusByAuthority sender mid ns rh =>
    obtain ⟨-, -, rfl⟩ := apply_setStatusByAuthority_ok hs
    refine ⟨fun m hm => ?_, fun hm => by simp [touched] at hm⟩
    simp only [touched, Option.some.injEq] at hm
    subst hm
    exact ⟨by simp [updS], fun m' hm' => by simp [updS, hm']⟩
  | initiateTransfer sender mid toA toOrg sh =>
    obtain ⟨-, -, -, -, rfl⟩ := apply_initiateTransfer_ok hs
    refine ⟨fun m hm => ?_, fun hm => by simp [touched] at hm⟩
    simp only [touched, Option.some.injEq] at hm
    subst hm
    exact ⟨by simp [updS], fun m' hm' => by simp [updS, hm']⟩
  | acceptTransfer sender mid =>
    obtain ⟨-, p, -, -, -, rfl⟩ := apply_acceptTransfer_ok hs
    refine ⟨fun m hm => ?_, fun hm => by simp [touched] at hm⟩
    simp only [touched, Option.some.injEq] at hm
    subst hm
    exact ⟨by simp [updS], fun m' hm' => by simp [updS, hm']⟩

/-- Witness for the amended C7: the registration step from `exS0` to `exS1`
grows the new material's history by exactly one entry. -/
theorem history_append_per_op_witness :
    (exS1.materialHistory exMid).length =
      (exS0.materialHistory exMid).length + 1 := by
  have h := history_append_per_op (.registerMaterial 10 "CELL_LINE" 1 "LabA")
    1 exS0 exS1 rfl
  exact (h.1 exMid (by decide)).1

/-!
## Claim C5: per material at most one pending transfer, and it is the tail
of the transfer sequence
-/

theorem updS_self {α : Type} (f : String → α) (k : String) (v : α) :
    updS f k v k = v := by
  simp [updS]

theorem all_accepted_of_guard {l : List Transfer}
    (hlast : l.getLast? = none ∨ ∃ t, l.getLast? = some t ∧ t.accepted = true)
    (hdrop : ∀ t ∈ l.dropLast, t.accepted = true) :
    ∀ t ∈ l, t.accepted = true := by
  intro t ht
  rcases eq_or_ne l [] with rfl | hne
  · simp at ht
  · rw [← List.dropLast_append_getLast hne] at ht
    rcases List.mem_append.1 ht with h1 | h1
    · exact hdrop t h1
    · have he : t = l.getLast hne := by simpa using h1
      subst he
      rcases hlast with h2 | ⟨t', h2, hacc⟩
      · rw [List.getLast?_eq_getLast l hne] at h2
        exact absurd h2 (by simp)
      · rw [List.getLast?_eq_getLast l hne] at h2
        have : l.getLast hne = t' := by simpa using h2
        rw [this]
        exact hacc

theorem pending_only_last (s : RegistryState) (h : Reachable s) :
    ∀ m, ∀ t ∈ (s.materialTransfers m).dropLast, t.accepted = true := by
  induction h with
  | init d =>
    intro m t ht
    simp [initialState] at ht
  | @step s s' op now hr hs ih =>
    cases op with
    | authorizeIssuer sender issuer a b c =>
      obtain ⟨-, rfl⟩ := apply_authorizeIssuer_ok hs
      exact ih
    | revokeIssuer sender issuer =>
      obtain ⟨-, rfl⟩ := apply_revokeIssuer_ok hs
      exact ih
    | registerMaterial sender mt mh org =>
      obtain ⟨-, -, -, rfl⟩ := apply_registerMaterial_ok hs
      exact ih
    | issueCredential sender mid ct ch vu cid ah iid =>
      obtain ⟨-, -, -, -, -, -, -, rfl⟩ := apply_issueCredential_ok hs
      exact ih
    | revokeCredential sender cid =>
      obtain ⟨-, -, -, rfl⟩ := apply_revokeCredential_ok hs
      exact ih
    | setStatusByOwner sender mid ns rh =>
      obtain ⟨-, -, -, -, rfl⟩ := apply_setStatusByOwner_ok hs
      exact ih
    | setStatusByAuthority sender mid ns rh =>
      obtain ⟨-, -, rfl⟩ := apply_setStatusByAuthority_ok hs
      exact ih
    | initiateTransfer sender mid toA toOrg sh =>
      obtain ⟨-, -, -, hguard, rfl⟩ := apply_initiateTransfer_ok hs
      intro m t ht
      by_cases he : m = mid
      · subst he
        simp only [updS_self] at ht
        rw [List.dropLast_concat] at ht
        exact all_accepted_of_guard hguard (ih m) t ht
      · simp only [updS, if_neg he] at ht
        exact ih m t ht
    | acceptTransfer sender mid =>
      obtain ⟨-, p, -, -, -, rfl⟩ := apply_acceptTransfer_ok hs
      intro m t ht
      by_cases he : m = mid
      · subst he
        simp only [updS_self] at ht
        rw [List.dropLast_concat] at ht
        exact ih m t ht
      · simp only [updS, if_neg he] at ht
        exact ih m t ht

/-- C5.  In every reachable state, for every material: every transfer
except possibly the tail is accepted (so an unaccepted transfer, if any, is
the most recently appended one), at most one transfer is unaccepted;
moreover `initiateTransfer` fails with `PendingTransferExists` whenever the
tail transfer is unaccepted (and the preceding ownership/ACTIVE checks
pass), and a successful `acceptTransfer` changes the transfer list only by
marking the tail accepted. -/
theorem at_most_one_pending (s : RegistryState) (h : Reachable s)
    (m : String) :
    (∀ t ∈ (s.materialTransfers m).dropLast, t.accepted = true) ∧
    ((s.materialTransfers m).countP (fun t => !t.accepted) ≤ 1) ∧
    (∀ (sender toA : Nat) (toOrg : String) (sh now : Nat) (p : Transfer),
       (s.materialTransfers m).getLast? = some p → p.accepted = false →
       s.materialExists m = true → (s.materials m).owner = sender →
       (s.materials m).status = .ACTIVE →
       apply (.initiateTransfer sender m toA toOrg sh) now s =
         .error .PendingTransferExists) ∧
    (∀ (sender now : Nat) (s' : RegistryState),
       apply (.acceptTransfer sender m) now s = .ok s' →
       ∃ p, (s.materialTransfers m).getLast? = some p ∧
         s'.materialTransfers m =
           (s.materialTransfers m).dropLast ++ [{ p with accepted := true }]) := by
  have hdrop := pending_only_last s h m
  refine ⟨hdrop, ?_, ?_, ?_⟩
  · rcases eq_or_ne (s.materialTransfers m) [] with hnil | hne
    · rw [hnil]
      simp
    · have hsplit := List.dropLast_append_getLast hne
      calc (s.materialTransfers m).countP (fun t => !t.accepted)
          = ((s.materialTransfers m).dropLast ++
              [(s.materialTransfers m).getLast hne]).countP
              (fun t => !t.accepted) := by rw [hsplit]
        _ ≤ 0 + 1 := by
            rw [List.countP_append]
            have hz : (s.materialTransfers m).dropLast.countP
                (fun t => !t.accepted) = 0 :=
              List.countP_eq_zero.mpr (fun a ha => by simp [hdrop a ha])
            rw [hz]
            have h1 := List.countP_le_length
              (p := fun t => !t.accepted)
              (l := [(s.materialTransfers m).getLast hne])
            simpa using h1
        _ = 1 := by omega
  · intro sender toA toOrg sh now p hlastp hpend hex hown hact
    simp only [apply, initiateTransfer]
    rw [if_neg (by simp [hex]), if_neg (by simp [hown]),
      if_neg (by simp [hact]), if_pos (by rw [hlastp]; simp [hpend])]
    rfl
  · intro sender now s' hacc
    obtain ⟨-, p, hlastp, -, -, rfl⟩ := apply_acceptTransfer_ok hacc
    exact ⟨p, hlastp, by simp [updS]⟩

/-- Witness for C5, on the reachable state `exX2`, which holds exactly one
(pending) transfer: its pending-transfer count is at most one, and every
non-tail transfer is accepted. -/
theorem at_most_one_pending_witness :
    ((exX2.materialTransfers exMid).countP (fun t => !t.accepted) ≤ 1) ∧
    (exX2.materialTransfers exMid).countP (fun t => !t.accepted) = 1 := by
  have h := at_most_one_pending exX2
    (.step (.initiateTransfer 10 exMid 20 "LabB" 11) 2
      (.step (.registerMaterial 10 "CELL_LINE" 1 "LabA") 1 (.init 0) rfl) rfl)
    exMid
  exact ⟨h.2.1, by decide⟩

/-!
## Claim C10: minted material IDs are always fresh, so the
`MaterialAlreadyExists` branch of `registerMaterial` is unreachable
-/

theorem exists_implies_minted (s : RegistryState) (h : Reachable s) :
    ∀ id, s.materialExists id = true →
      ∃ mt n, (mt = "CELL_LINE" ∨ mt = "PLASMID") ∧ 1 ≤ n ∧
        n ≤ s.materialCount ∧ id = mintedId mt n := by
  induction h with
  | init d =>
    intro id hid
    simp [initialState] at hid
  | @step s s' op now hr hs ih =>
    cases op with
    | authorizeIssuer sender issuer a b c =>
      obtain ⟨-, rfl⟩ := apply_authorizeIssuer_ok hs
      exact ih
    | revokeIssuer sender issuer =>
      obtain ⟨-, rfl⟩ := apply_revokeIssuer_ok hs
      exact ih
    | registerMaterial sender mt mh org =>
      obtain ⟨hmt, -, -, rfl⟩ := apply_registerMaterial_ok hs
      intro id hid
      by_cases he : id = mintedId mt (s.materialCount + 1)
      · exact ⟨mt, s.materialCount + 1, hmt, by omega, by simp, he⟩
      · have hold : s.materialExists id = true := by
          simpa [updS, he] using hid
        obtain ⟨mt', n, hmt', hn1, hn2, hid'⟩ := ih id hold
        exact ⟨mt', n, hmt', hn1, by simp; omega, hid'⟩
    | issueCredential sender mid ct ch vu cid ah iid =>
      obtain ⟨-, -, -, -, -, -, -, rfl⟩ := apply_issueCredential_ok hs
      exact ih
    | revokeCredential sender cid =>
      obtain ⟨-, -, -, rfl⟩ := apply_revokeCredential_ok hs
      exact ih
    | setStatusByOwner sender mid ns rh =>
      obtain ⟨-, -, -, -, rfl⟩ := apply_setStatusByOwner_ok hs
      exact ih
    | setStatusByAuthority sender mid ns rh =>
      obtain ⟨-, -, rfl⟩ := apply_setStatusByAuthority_ok hs
      exact ih
    | initiateTransfer sender mid toA toOrg sh =>
      obtain ⟨-, -, -, -, rfl⟩ := apply_initiateTransfer_ok hs
      exact ih
    | acceptTransfer sender mid =>
      obtain ⟨-, p, -, -, -, rfl⟩ := apply_acceptTransfer_ok hs
      exact ih

/-- C10.  In every reachable state, `registerMaterial` can never fail with
`MaterialAlreadyExists` (for any input), and with valid inputs the ID
minted from the incremented shared counter — `bio:<kind>:<n>` with
`uint2str` the injective decimal encoding — does not collide with any
existing material, so the registration succeeds and adds a new material. -/
theorem minted_ids_fresh (s : RegistryState) (h : Reachable s) :
    (∀ (sender : Nat) (mt : String) (mh : Nat) (org : String) (now : Nat),
       apply (.registerMaterial sender mt mh org) now s ≠
         .error .MaterialAlreadyExists) ∧
    (∀ (sender : Nat) (mt : String) (mh : Nat) (org : String) (now : Nat),
       (mt = "CELL_LINE" ∨ mt = "PLASMID") → mh ≠ 0 →
       s.materialExists (mintedId mt (s.materialCount + 1)) = false ∧
       ∃ s', apply (.registerMaterial sender mt mh org) now s = .ok s') := by
  have hfresh : ∀ mt, (mt = "CELL_LINE" ∨ mt = "PLASMID") →
      s.materialExists (mintedId mt (s.materialCount + 1)) = false := by
    intro mt hmt
    by_contra hcon
    have htrue : s.materialExists (mintedId mt (s.materialCount + 1)) = true :=
      eq_true_of_ne_false hcon
    obtain ⟨mt', n, hmt', hn1, hn2, heq⟩ := exists_implies_minted s h _ htrue
    have hinj := mintedId_inj hmt hmt' heq
    omega
  constructor
  · intro sender mt mh org now hcon
    simp only [apply, registerMaterial] at hcon
    split_ifs at hcon with h1 h2 h3
    · simp [Except.map] at hcon
    · simp [Except.map] at hcon
    · have hmt : mt = "CELL_LINE" ∨ mt = "PLASMID" := by tauto
      rw [hfresh mt hmt] at h3
      exact Bool.noConfusion h3
    · simp [Except.map] at hcon
  · intro sender mt mh org now hmt hmh
    refine ⟨hfresh mt hmt, ?_⟩
    simp only [apply, registerMaterial]
    rw [if_neg (by tauto), if_neg hmh, if_neg (by simp [hfresh mt hmt])]
    exact ⟨_, rfl⟩

/-- Witness for C10: on the reachable state `exS1` (one material already
registered), the next minted PLASMID ID is fresh and the registration
succeeds. -/
theorem minted_ids_fresh_witness :
    exS1.materialExists (mintedId "PLASMID" (exS1.materialCount + 1)) = false ∧
    ∃ s', apply (.registerMaterial 10 "PLASMID" 1 "LabA") 2 exS1 = .ok s' := by
  have h := minted_ids_fresh exS1
    (.step (.registerMaterial 10 "CELL_LINE" 1 "LabA") 1 (.init 0) rfl)
  exact h.2 10 "PLASMID" 1 "LabA" 2 (Or.inr rfl) (by omega)

end BioPassport
